import Mathlib

/-!
Shallow embedding of the in-scope logic of the credit-card fraud detection
notebook (`Fraud_Detection_Exercise.ipynb`): the fraud-ratio calculator
`fraudulent_percentage`, the train/test partitioner `train_test_split`, and the
confusion-matrix evaluator `evaluate`.

Modelling conventions:
* A dataframe / numpy matrix is a `List Row` with `Row := List ℚ`; the raw
  layout keeps the binary class label as the LAST column of each row.
* Python/numpy floats are modelled as exact rationals `ℚ`; the special IEEE
  outcomes of numpy's true division (NaN on 0/0, +inf on x/0 with x > 0) are
  made explicit by the `NpFloat` type.
* numpy's global random generator is modelled by an explicit state `RNGState`
  threaded into `train_test_split`; `np.random.seed` resets that state as a
  function of the seed alone, and `np.random.shuffle` is a deterministic
  permutation driven by the state.  The exact MT19937 stream is abstracted by
  a linear congruential generator: none of the verified properties depends on
  which permutation a given seed selects, only on the shuffle being a
  deterministic permutation of the rows.
-/

/-- One data point: a fixed-width tuple of numeric values, label last. -/
abbrev Row : Type := List ℚ

/-- A dataframe / 2-d numpy matrix: an ordered sequence of rows. -/
abbrev Table : Type := List Row

/-- Selection `[:-1]` on a row: all columns but the last (the features). -/
def dropLastCol (r : Row) : Row := r.dropLast

/-- Selection `[-1]` on a row: the last column (the class label).  Rows of the
transaction table are fixed-width (31 columns) and never empty, so the default
value `0` for an empty row is never exercised by the notebook's data. -/
def lastCol (r : Row) : ℚ := r.getLastD 0

/-- State of numpy's global random generator. -/
abbrev RNGState : Type := Nat

/-- One step of the pseudo-random stream (64-bit linear congruential
generator standing in for the MT19937 stream; see the module docstring). -/
def lcgNext (s : RNGState) : RNGState :=
  (6364136223846793005 * s + 1442695040888963407) % 2 ^ 64

/-- Embedding of `np.random.seed(seed)`: the global generator state after
seeding is a function of `seed` alone, whatever the state was before; this is
the only property of seeding the development relies on. -/
def np_random_seed (seed : Nat) : RNGState := seed % 2 ^ 32

/-- Remove the element at index `j` from a list, returning it together with
the remaining elements (in their original order); `none` if `j` is out of
range.  Helper for the Fisher-Yates style shuffle below. -/
def pickOut : List Row → Nat → Option (Row × List Row)
  | [], _ => none
  | x :: xs, 0 => some (x, xs)
  | x :: xs, j + 1 => (pickOut xs j).map (fun p => (p.1, x :: p.2))

/-- Fuelled core of the shuffle: at each step draw a pseudo-random index into
the remaining rows, move that row to the front of the output, and recurse on
the rest with the advanced generator state. -/
def shuffleAux : Nat → RNGState → List Row → List Row
  | 0, _, l => l
  | fuel + 1, s, l =>
    match pickOut l (lcgNext s % l.length) with
    | none => l
    | some p => p.1 :: shuffleAux fuel (lcgNext s) p.2

/-- Embedding of `np.random.shuffle(matrix_df)` run from generator state `s`:
a deterministic permutation of the rows selected by `s`. -/
def np_random_shuffle (s : RNGState) (l : Table) : Table :=
  shuffleAux l.length s l

/-- Embedding of `transaction_df.values`.  The transaction frame mixes dtypes
(the `Class` column is int64, the 30 feature columns are float64), so pandas
consolidates into a SINGLE fresh float64 ndarray: `.values` hands back a copy,
not a view, and the in-place shuffle inside `train_test_split` therefore
touches only that copy, never the caller's frame.  In the embedding the copy
is the same immutable list of rows. -/
def dfValues (transaction_df : Table) : Table := transaction_df

/-- Python `int()` applied to the nonnegative float `len * (1 - test_size)`:
truncation toward zero, which on nonnegative arguments is the floor.  (For
`test_size > 1` the product is negative and real numpy would slice with a
negative index; no claim exercises that range and the notebook never does.) -/
def pyInt (q : ℚ) : Nat := (⌊q⌋).toNat

/-- The cut index `train_size = int(len(matrix_df) * (1 - test_size))`. -/
def trainSizeOf (matrix_df : Table) (test_size : ℚ) : Nat :=
  pyInt ((matrix_df.length : ℚ) * (1 - test_size))

/-- Result of the partitioner: the two `(features, labels)` pairs it returns. -/
structure SplitResult where
  train_features : Table
  train_labels : List ℚ
  test_features : Table
  test_labels : List ℚ
deriving Repr, DecidableEq

/-- The shuffled matrix that `train_test_split` slices: `matrix_df` after
`np.random.seed(seed); np.random.shuffle(matrix_df)`. -/
def shuffledMatrix (seed : Nat) (transaction_df : Table) : Table :=
  np_random_shuffle (np_random_seed seed) (dfValues transaction_df)

/-- Embedding of the notebook's `train_test_split(transaction_df, test_size,
seed)`.  The explicit `g` argument is the incoming state of numpy's global
generator (the call could in principle depend on it; `np.random.seed(seed)` on
the first line overwrites it).  The second component of the result is the
caller's `transaction_df` after the call: per `dfValues`, the in-place shuffle
acts on a fresh copy of the frame's data, so the frame is returned unchanged.

Source, cell `train_test_split`:
  matrix_df = transaction_df.values
  np.random.seed(seed)
  np.random.shuffle(matrix_df)
  train_size = int(len(matrix_df) * (1 - test_size))
  train_features = matrix_df[:train_size, :-1]
  train_labels = matrix_df[:train_size, -1]
  test_features = matrix_df[train_size:, :-1]
  test_labels = matrix_df[train_size:, -1]
  return (train_features, train_labels), (test_features, test_labels) -/
def train_test_split (g : RNGState) (transaction_df : Table) (test_size : ℚ)
    (seed : Nat) : SplitResult × Table :=
  let matrix_df := shuffledMatrix seed transaction_df
  let train_size := trainSizeOf matrix_df test_size
  ({ train_features := (matrix_df.take train_size).map dropLastCol
     train_labels := (matrix_df.take train_size).map lastCol
     test_features := (matrix_df.drop train_size).map dropLastCol
     test_labels := (matrix_df.drop train_size).map lastCol },
   transaction_df)

/-- Embedding of `fraudulent_percentage(transaction_df)`:
`transaction_df[transaction_df['Class']==1].shape[0] / transaction_df.shape[0]`,
i.e. the number of rows whose label column equals 1 over the total number of
rows.  On an empty table the Python code raises `ZeroDivisionError` (plain int
division); in the embedding `ℚ` division by zero returns 0 — every claim about
this function assumes a non-empty table, where the two agree. -/
def fraudulent_percentage (transaction_df : Table) : ℚ :=
  (((transaction_df.filter (fun r => lastCol r == 1)).length : ℚ)) /
    ((transaction_df.length : ℚ))

/-- Fraud-row count of a table (numerator of `fraudulent_percentage`). -/
def fraudCount (transaction_df : Table) : Nat :=
  (transaction_df.filter (fun r => lastCol r == 1)).length

/-- Value of a numpy float64 scalar as produced by the evaluator's divisions:
either an exact finite value, or the IEEE specials NaN / +inf that numpy
true-division produces on a zero denominator (with a RuntimeWarning, never an
exception). -/
inductive NpFloat : Type where
  | val (q : ℚ)
  | nan
  | inf
deriving Repr, DecidableEq

/-- Embedding of numpy true division `a / b` on the nonnegative int64
confusion counts: `0/0` is NaN, `a/0` with `a > 0` is +inf, otherwise the
exact quotient. -/
def npDiv (a b : Nat) : NpFloat :=
  if b = 0 then (if a = 0 then NpFloat.nan else NpFloat.inf)
  else NpFloat.val ((a : ℚ) / (b : ℚ))

/-- Embedding of `np.array_split(l, n)` (auxiliary): emit `parts` chunks, the
first `r` of size `k + 1` and the rest of size `k`. -/
def arraySplitAux : List Row → Nat → Nat → Nat → List Table
  | _, 0, _, _ => []
  | l, parts + 1, k, 0 => l.take k :: arraySplitAux (l.drop k) parts k 0
  | l, parts + 1, k, r + 1 => l.take (k + 1) :: arraySplitAux (l.drop (k + 1)) parts k r

/-- Embedding of `np.array_split(l, n)`: split `l` into `n` consecutive parts
of sizes `⌈len/n⌉` (the first `len % n` of them) and `⌊len/n⌋` (the rest). -/
def np_array_split (l : Table) (n : Nat) : List Table :=
  arraySplitAux l n (l.length / n) (l.length % n)

/-- The predicted-label sequence assembled by `evaluate`: the test features are
split into 100 batches, each batch is sent to the prediction endpoint, and the
per-batch predicted labels are concatenated back in order.  The endpoint is the
out-of-scope managed model; it is modelled as a black-box pure function
`predictor : Row → ℚ` from a feature row to its predicted label. -/
def predictions (predictor : Row → ℚ) (test_features : Table) : List ℚ :=
  ((np_array_split test_features 100).map (fun batch => batch.map predictor)).flatten

/-- Embedding of `np.logical_and(xs, ys).sum()` on two equal-length float
arrays: the number of positions where both entries are nonzero (numpy's
truthiness on floats). -/
def npLogicalAndSum (xs ys : List ℚ) : Nat :=
  (xs.zip ys).countP (fun p => p.1 != 0 && p.2 != 0)

/-- Elementwise `1 - xs`, as in the evaluator's `1 - test_labels`. -/
def oneMinus (xs : List ℚ) : List ℚ := xs.map (fun x => 1 - x)

/-- The dictionary of performance metrics returned by `evaluate`. -/
structure Metrics where
  TP : Nat
  FP : Nat
  FN : Nat
  TN : Nat
  Precision : NpFloat
  Recall : NpFloat
  Accuracy : NpFloat
deriving Repr, DecidableEq

/-- Confusion counts and derived metrics of `evaluate`, as a function of the
ground-truth labels and the assembled predicted labels:
  tp = np.logical_and(test_labels, test_preds).sum()
  fp = np.logical_and(1-test_labels, test_preds).sum()
  tn = np.logical_and(1-test_labels, 1-test_preds).sum()
  fn = np.logical_and(test_labels, 1-test_preds).sum()
  recall = tp / (tp + fn); precision = tp / (tp + fp)
  accuracy = (tp + tn) / (tp + fp + tn + fn) -/
def evaluateCounts (test_labels test_preds : List ℚ) : Metrics :=
  let tp := npLogicalAndSum test_labels test_preds
  let fp := npLogicalAndSum (oneMinus test_labels) test_preds
  let tn := npLogicalAndSum (oneMinus test_labels) (oneMinus test_preds)
  let fn := npLogicalAndSum test_labels (oneMinus test_preds)
  { TP := tp, FP := fp, FN := fn, TN := tn
    Precision := npDiv tp (tp + fp)
    Recall := npDiv tp (tp + fn)
    Accuracy := npDiv (tp + tn) (tp + fp + tn + fn) }

/-- Embedding of `evaluate(predictor, test_features, test_labels)`: batch the
test features, query the endpoint, concatenate the predicted labels, and
reduce predicted against actual to the metrics dictionary.  (The `verbose`
printing has no effect on the returned value and is omitted.) -/
def evaluate (predictor : Row → ℚ) (test_features : Table)
    (test_labels : List ℚ) : Metrics :=
  evaluateCounts test_labels (predictions predictor test_features)

/-- A predictor used in concrete scenarios: predicts the first entry of the
feature row, so a feature table `[[p1], [p2], ...]` realises an arbitrary
predicted-label sequence `[p1, p2, ...]`. -/
def headPredictor : Row → ℚ := fun r => r.headD 0

/-- A concrete 10-row transaction table with exactly one fraud row (label 1 in
the last column). -/
def table10 : Table :=
  [[0, 0], [1, 0], [2, 0], [3, 0], [4, 1], [5, 0], [6, 0], [7, 0], [8, 0], [9, 0]]

/-- A concrete 100-row table (two feature columns and a zero label). -/
def table100 : Table := List.replicate 100 [5, 7, 0]

/-! ### Structural lemmas about the embedded operations -/

/-- Removing an element at an in-range index yields a permutation of the list. -/
theorem pickOut_perm : ∀ (l : List Row) (j : Nat) (y : Row) (ys : List Row),
    pickOut l j = some (y, ys) → l.Perm (y :: ys) := by
  intro l
  induction l with
  | nil => intro j y ys h; simp [pickOut] at h
  | cons x xs ih =>
    intro j y ys h
    cases j with
    | zero =>
      simp only [pickOut, Option.some.injEq, Prod.mk.injEq] at h
      obtain ⟨h1, h2⟩ := h
      subst h1
      subst h2
      exact List.Perm.refl _
    | succ j =>
      unfold pickOut at h
      cases hp : pickOut xs j with
      | none => rw [hp] at h; simp at h
      | some p =>
        rw [hp] at h
        simp only [Option.map_some', Option.some.injEq, Prod.mk.injEq] at h
        obtain ⟨h1, h2⟩ := h
        subst h1
        subst h2
        have hxs : xs.Perm (p.1 :: p.2) := ih j p.1 p.2 (by rw [hp])
        have hcons : (x :: xs).Perm (x :: p.1 :: p.2) := hxs.cons x
        have hswap : (x :: p.1 :: p.2).Perm (p.1 :: x :: p.2) := List.Perm.swap p.1 x p.2
        exact hcons.trans hswap

/-- The fuelled shuffle core permutes its input, whatever the fuel and state. -/
theorem shuffleAux_perm : ∀ (fuel : Nat) (s : RNGState) (l : List Row),
    (shuffleAux fuel s l).Perm l := by
  intro fuel
  induction fuel with
  | zero => intro s l; exact List.Perm.refl _
  | succ n ih =>
    intro s l
    unfold shuffleAux
    cases hp : pickOut l (lcgNext s % l.length) with
    | none => exact List.Perm.refl _
    | some p =>
      have h1 : l.Perm (p.1 :: p.2) := pickOut_perm l _ p.1 p.2 hp
      exact ((ih (lcgNext s) p.2).cons p.1).trans h1.symm

/-- The embedded `np.random.shuffle` is a permutation of the rows. -/
theorem np_random_shuffle_perm (s : RNGState) (l : Table) :
    (np_random_shuffle s l).Perm l :=
  shuffleAux_perm l.length s l

/-- Shuffling preserves the number of rows. -/
theorem np_random_shuffle_length (s : RNGState) (l : Table) :
    (np_random_shuffle s l).length = l.length :=
  (np_random_shuffle_perm s l).length_eq

/-- The matrix sliced inside `train_test_split` is a permutation of the
caller's rows. -/
theorem shuffledMatrix_perm (seed : Nat) (df : Table) :
    (shuffledMatrix seed df).Perm df :=
  np_random_shuffle_perm (np_random_seed seed) df

/-- The matrix sliced inside `train_test_split` has the caller's row count. -/
theorem shuffledMatrix_length (seed : Nat) (df : Table) :
    (shuffledMatrix seed df).length = df.length :=
  (shuffledMatrix_perm seed df).length_eq

/-- Flattening the chunks produced by the array-split core gives back a
prefix of the input of the expected total size. -/
theorem arraySplitAux_flatten : ∀ (parts : Nat) (r k : Nat) (l : List Row),
    r ≤ parts → (arraySplitAux l parts k r).flatten = l.take (parts * k + r) := by
  intro parts
  induction parts with
  | zero =>
    intro r k l hr
    have hr0 : r = 0 := Nat.le_zero.mp hr
    subst hr0
    simp [arraySplitAux]
  | succ n ih =>
    intro r k l hr
    cases r with
    | zero =>
      rw [arraySplitAux, List.flatten_cons, ih 0 k (l.drop k) (Nat.zero_le n),
        Nat.add_zero, Nat.add_zero]
      have harith : (n + 1) * k = k + n * k := by ring
      rw [harith, ← List.take_add]
    | succ r' =>
      rw [arraySplitAux, List.flatten_cons,
        ih r' k (l.drop (k + 1)) (Nat.le_of_succ_le_succ hr)]
      have harith : (n + 1) * k + (r' + 1) = (k + 1) + (n * k + r') := by ring
      rw [harith, ← List.take_add]

/-- `np.array_split` into a positive number of parts loses and reorders
nothing: concatenating the parts gives back the original sequence. -/
theorem np_array_split_flatten (l : Table) (n : Nat) (hn : 0 < n) :
    (np_array_split l n).flatten = l := by
  unfold np_array_split
  rw [arraySplitAux_flatten n (l.length % n) (l.length / n) l
    (Nat.le_of_lt (Nat.mod_lt _ hn))]
  rw [Nat.div_add_mod]
  exact List.take_length l

/-- The batched endpoint queries of `evaluate` assemble exactly the pointwise
predictions, in the order of the test features. -/
theorem predictions_eq_map (predictor : Row → ℚ) (test_features : Table) :
    predictions predictor test_features = test_features.map predictor := by
  unfold predictions
  rw [← List.map_flatten, np_array_split_flatten _ 100 (by norm_num)]

/-- Rewriting the elementwise `np.logical_and(1-xs, ys).sum()` as a count over
the zipped (actual, predicted) pairs. -/
theorem npLogicalAndSum_oneMinus_left (xs ys : List ℚ) :
    npLogicalAndSum (oneMinus xs) ys
      = (xs.zip ys).countP (fun p => (1 - p.1) != 0 && p.2 != 0) := by
  unfold npLogicalAndSum oneMinus
  rw [List.zip_map_left, List.countP_map]
  rfl

/-- Rewriting the elementwise `np.logical_and(xs, 1-ys).sum()` as a count over
the zipped (actual, predicted) pairs. -/
theorem npLogicalAndSum_oneMinus_right (xs ys : List ℚ) :
    npLogicalAndSum xs (oneMinus ys)
      = (xs.zip ys).countP (fun p => p.1 != 0 && (1 - p.2) != 0) := by
  unfold npLogicalAndSum oneMinus
  rw [List.zip_map_right, List.countP_map]
  rfl

/-- Rewriting the elementwise `np.logical_and(1-xs, 1-ys).sum()` as a count
over the zipped (actual, predicted) pairs. -/
theorem npLogicalAndSum_oneMinus_both (xs ys : List ℚ) :
    npLogicalAndSum (oneMinus xs) (oneMinus ys)
      = (xs.zip ys).countP (fun p => (1 - p.1) != 0 && (1 - p.2) != 0) := by
  unfold npLogicalAndSum oneMinus
  rw [List.zip_map, List.countP_map]
  rfl

/-- On pairs of binary values, the four confusion conditions of `evaluate`
partition the positions: their counts sum to the length. -/
theorem confusion_indicator_sum : ∀ (l : List (ℚ × ℚ)),
    (∀ p ∈ l, (p.1 = 0 ∨ p.1 = 1) ∧ (p.2 = 0 ∨ p.2 = 1)) →
    l.countP (fun p => p.1 != 0 && p.2 != 0)
      + l.countP (fun p => (1 - p.1) != 0 && p.2 != 0)
      + l.countP (fun p => (1 - p.1) != 0 && (1 - p.2) != 0)
      + l.countP (fun p => p.1 != 0 && (1 - p.2) != 0)
      = l.length := by
  intro l
  induction l with
  | nil => intro _; simp
  | cons a l ih =>
    intro h
    have ha := h a (List.mem_cons_self a l)
    have hrest : ∀ p ∈ l, (p.1 = 0 ∨ p.1 = 1) ∧ (p.2 = 0 ∨ p.2 = 1) :=
      fun p hp => h p (List.mem_cons_of_mem a hp)
    have hsum := ih hrest
    simp only [List.countP_cons, List.length_cons]
    rcases ha with ⟨h1 | h1, h2 | h2⟩ <;> rw [h1, h2] <;> norm_num <;> omega

/-! ### Claim theorems -/

/-- C1: for all valid `test_size` in (0,1) and a fixed integer seed,
`train_test_split` is deterministic: two calls on the same transaction table
with the same seed — whatever the state `g` resp. `g'` of numpy's global
generator when each call starts — produce identical train/test row
assignments, because `np.random.seed(seed)` resets the generator to a state
depending on the seed alone before the shuffle. -/
theorem train_test_split_deterministic (g g' : RNGState) (df : Table) (ts : ℚ)
    (seed : Nat) (h0 : 0 < ts) (h1 : ts < 1) :
    (train_test_split g df ts seed).1 = (train_test_split g' df ts seed).1 := rfl

/-- Witness for C1 at a concrete table, `test_size = 3/10`, seed 1, and two
different incoming generator states. -/
theorem train_test_split_deterministic_witness :
    (0 : ℚ) < 3 / 10 ∧ (3 / 10 : ℚ) < 1 ∧
    (train_test_split 0 table10 (3 / 10) 1).1
      = (train_test_split 777 table10 (3 / 10) 1).1 :=
  ⟨by norm_num, by norm_num,
    train_test_split_deterministic 0 777 table10 (3 / 10) 1 (by norm_num) (by norm_num)⟩

/-- C2: the transaction table passed to `train_test_split` is not mutated by
the call: the caller's table after the call (second component of the embedded
call) holds the same rows in the same order as before.  The in-place
`np.random.shuffle` acts on the fresh array materialized by
`transaction_df.values` (see `dfValues`), not on the frame. -/
theorem train_test_split_table_unchanged (g : RNGState) (df : Table)
    (ts : ℚ) (seed : Nat) :
    (train_test_split g df ts seed).2 = df := rfl

/-- C4: on a non-empty table, `fraudulent_percentage` is the fraud-row count
over the total row count: it lies in [0, 1], multiplying it back by the row
count recovers the exact fraud-row count, and the concrete 10-row table with
exactly one fraud row yields 1/10. -/
theorem fraudulent_percentage_spec (df : Table) (hne : df ≠ []) :
    0 ≤ fraudulent_percentage df ∧ fraudulent_percentage df ≤ 1 ∧
    fraudulent_percentage df * (df.length : ℚ) = (fraudCount df : ℚ) ∧
    fraudulent_percentage table10 = 1 / 10 := by
  have hpos : 0 < df.length := List.length_pos.mpr hne
  have hq : (0 : ℚ) < (df.length : ℚ) := by exact_mod_cast hpos
  have hle : (df.filter (fun r => lastCol r == 1)).length ≤ df.length :=
    List.length_filter_le _ _
  refine ⟨?_, ?_, ?_, ?_⟩
  · unfold fraudulent_percentage
    positivity
  · unfold fraudulent_percentage
    rw [div_le_one hq]
    exact_mod_cast hle
  · unfold fraudulent_percentage fraudCount
    exact div_mul_cancel₀ _ (ne_of_gt hq)
  · have hc : (table10.filter (fun r => lastCol r == 1)).length = 1 := by decide
    have hl : table10.length = 10 := by decide
    unfold fraudulent_percentage
    rw [hc, hl]
    norm_num

/-- Witness for C4 at the concrete 10-row table. -/
theorem fraudulent_percentage_spec_witness :
    table10 ≠ [] ∧
    (0 ≤ fraudulent_percentage table10 ∧ fraudulent_percentage table10 ≤ 1 ∧
      fraudulent_percentage table10 * (table10.length : ℚ) = (fraudCount table10 : ℚ) ∧
      fraudulent_percentage table10 = 1 / 10) :=
  ⟨by decide, fraudulent_percentage_spec table10 (by decide)⟩

/-- C10: `train_test_split` performs no validation of `test_size`: with
`test_size = 0`, outside the documented (0,1) range, the call still returns
(the embedded function is total there, mirroring the absence of any check or
exception in the source), the test partition is empty, and every row lands in
the training partition. -/
theorem train_test_split_zero_test_size (g : RNGState) (df : Table) (seed : Nat) :
    (train_test_split g df 0 seed).1.test_features = []
    ∧ (train_test_split g df 0 seed).1.test_labels = []
    ∧ (train_test_split g df 0 seed).1.train_features.length = df.length
    ∧ (train_test_split g df 0 seed).1.train_labels.length = df.length := by
  have hsize : trainSizeOf (shuffledMatrix seed df) 0
      = (shuffledMatrix seed df).length := by
    simp [trainSizeOf, pyInt]
  refine ⟨?_, ?_, ?_, ?_⟩ <;>
    simp [train_test_split, hsize, shuffledMatrix_length]

/-- C5: for any valid `test_size` in (0,1) the two partitions are disjoint and
exhaustive: train and test row counts (features and labels alike) sum to the
original table's row count, and the train rows followed by the test rows are
exactly the shuffled table — the partitions are the `take`/`drop` halves at
the cut, so no row position lands in both. -/
theorem train_test_split_partition (g : RNGState) (df : Table) (ts : ℚ)
    (seed : Nat) (h0 : 0 < ts) (h1 : ts < 1) :
    (train_test_split g df ts seed).1.train_features.length
        + (train_test_split g df ts seed).1.test_features.length = df.length
    ∧ (train_test_split g df ts seed).1.train_labels.length
        + (train_test_split g df ts seed).1.test_labels.length = df.length
    ∧ (shuffledMatrix seed df).take (trainSizeOf (shuffledMatrix seed df) ts)
        ++ (shuffledMatrix seed df).drop (trainSizeOf (shuffledMatrix seed df) ts)
        = shuffledMatrix seed df := by
  have hlen := shuffledMatrix_length seed df
  refine ⟨?_, ?_, List.take_append_drop _ _⟩ <;>
  · simp only [train_test_split, List.length_map, List.length_take, List.length_drop]
    omega

/-- Witness for C5 at a concrete table and `test_size = 3/10`. -/
theorem train_test_split_partition_witness :
    (train_test_split 0 table10 (3 / 10) 1).1.train_features.length
      + (train_test_split 0 table10 (3 / 10) 1).1.test_features.length
      = table10.length :=
  (train_test_split_partition 0 table10 (3 / 10) 1 (by norm_num) (by norm_num)).1

/-- C6: `train_test_split` cuts the shuffled sequence at index
`⌊total_rows * (1 - test_size)⌋`: rows before the cut form the training
partition and rows at/after form the test partition, with the label (last)
column separated from the feature columns in each; 100 rows with
`test_size = 3/10` yield 70 training rows and 30 test rows. -/
theorem train_test_split_cut (g : RNGState) (df : Table) (ts : ℚ) (seed : Nat)
    (h0 : 0 < ts) (h1 : ts < 1) :
    (train_test_split g df ts seed).1.train_features
        = ((shuffledMatrix seed df).take
            (Int.toNat ⌊(df.length : ℚ) * (1 - ts)⌋)).map dropLastCol
    ∧ (train_test_split g df ts seed).1.train_labels
        = ((shuffledMatrix seed df).take
            (Int.toNat ⌊(df.length : ℚ) * (1 - ts)⌋)).map lastCol
    ∧ (train_test_split g df ts seed).1.test_features
        = ((shuffledMatrix seed df).drop
            (Int.toNat ⌊(df.length : ℚ) * (1 - ts)⌋)).map dropLastCol
    ∧ (train_test_split g df ts seed).1.test_labels
        = ((shuffledMatrix seed df).drop
            (Int.toNat ⌊(df.length : ℚ) * (1 - ts)⌋)).map lastCol
    ∧ (df.length = 100 → ts = 3 / 10 →
        (train_test_split g df ts seed).1.train_features.length = 70
        ∧ (train_test_split g df ts seed).1.test_features.length = 30) := by
  have hlen := shuffledMatrix_length seed df
  have hsize : trainSizeOf (shuffledMatrix seed df) ts
      = Int.toNat ⌊(df.length : ℚ) * (1 - ts)⌋ := by
    unfold trainSizeOf pyInt
    rw [hlen]
  refine ⟨?_, ?_, ?_, ?_, ?_⟩
  · simp only [train_test_split]
    rw [hsize]
  · simp only [train_test_split]
    rw [hsize]
  · simp only [train_test_split]
    rw [hsize]
  · simp only [train_test_split]
    rw [hsize]
  · intro h100 hts
    subst hts
    have hcut : Int.toNat ⌊(df.length : ℚ) * (1 - 3 / 10)⌋ = 70 := by
      rw [h100]
      norm_num
      decide
    constructor
    · simp only [train_test_split, List.length_map, List.length_take]
      rw [hsize, hcut, hlen, h100]
      omega
    · simp only [train_test_split, List.length_map, List.length_drop]
      rw [hsize, hcut, hlen, h100]

/-- The concrete 100-row table indeed has 100 rows. -/
theorem table100_length : table100.length = 100 := by
  unfold table100
  rw [List.length_replicate]

/-- Witness for C6: a concrete 100-row table with `test_size = 3/10` splits
into 70 training rows and 30 test rows. -/
theorem train_test_split_cut_witness :
    (train_test_split 0 table100 (3 / 10) 1).1.train_features.length = 70
    ∧ (train_test_split 0 table100 (3 / 10) 1).1.test_features.length = 30 :=
  (train_test_split_cut 0 table100 (3 / 10) 1 (by norm_num)
    (by norm_num)).2.2.2.2 table100_length rfl

/-- C7: if every label in the source table is 0 or 1, every element of the
train and test label sequences returned by `train_test_split` is 0 or 1 (the
shuffle permutes the rows and the slices select among them). -/
theorem train_test_split_labels_binary (g : RNGState) (df : Table) (ts : ℚ)
    (seed : Nat) (h : ∀ r ∈ df, lastCol r = 0 ∨ lastCol r = 1) :
    (∀ x ∈ (train_test_split g df ts seed).1.train_labels, x = 0 ∨ x = 1)
    ∧ (∀ x ∈ (train_test_split g df ts seed).1.test_labels, x = 0 ∨ x = 1) := by
  have hperm := shuffledMatrix_perm seed df
  constructor
  · intro x hx
    simp only [train_test_split] at hx
    rw [List.mem_map] at hx
    obtain ⟨r, hr, hrx⟩ := hx
    have hrdf : r ∈ df := hperm.mem_iff.mp (List.take_subset _ _ hr)
    rw [← hrx]
    exact h r hrdf
  · intro x hx
    simp only [train_test_split] at hx
    rw [List.mem_map] at hx
    obtain ⟨r, hr, hrx⟩ := hx
    have hrdf : r ∈ df := hperm.mem_iff.mp (List.drop_subset _ _ hr)
    rw [← hrx]
    exact h r hrdf

/-- Witness for C7 at the concrete 10-row table, whose labels are binary. -/
theorem train_test_split_labels_binary_witness :
    (∀ x ∈ (train_test_split 0 table10 (3 / 10) 1).1.train_labels, x = 0 ∨ x = 1)
    ∧ (∀ x ∈ (train_test_split 0 table10 (3 / 10) 1).1.test_labels, x = 0 ∨ x = 1) :=
  train_test_split_labels_binary 0 table10 (3 / 10) 1 (by decide)

/-- Unfolding `np.logical_and(xs, ys).sum()` to a count over the zipped pairs. -/
theorem npLogicalAndSum_eq_countP (xs ys : List ℚ) :
    npLogicalAndSum xs ys
      = (xs.zip ys).countP (fun p => p.1 != 0 && p.2 != 0) := rfl

/-- If every entry of `ys` is zero, the elementwise logical-and count is 0. -/
theorem npLogicalAndSum_right_zero (xs ys : List ℚ) (h : ∀ y ∈ ys, y = 0) :
    npLogicalAndSum xs ys = 0 := by
  unfold npLogicalAndSum
  rw [List.countP_eq_zero]
  intro p hp2
  obtain ⟨a, b⟩ := p
  obtain ⟨ha, hb⟩ := List.of_mem_zip hp2
  have hb0 : b = 0 := h b hb
  subst hb0
  norm_num

/-- When the actual labels and the predictor's outputs are binary, every pair
in the zipped (actual, predicted) sequence is a pair of binary values. -/
theorem zip_labels_preds_binary (predictor : Row → ℚ) (test_features : Table)
    (test_labels : List ℚ)
    (hl : ∀ x ∈ test_labels, x = 0 ∨ x = 1)
    (hp : ∀ r ∈ test_features, predictor r = 0 ∨ predictor r = 1) :
    ∀ p ∈ test_labels.zip (test_features.map predictor),
      (p.1 = 0 ∨ p.1 = 1) ∧ (p.2 = 0 ∨ p.2 = 1) := by
  intro p hp2
  obtain ⟨a, b⟩ := p
  obtain ⟨ha, hb⟩ := List.of_mem_zip hp2
  refine ⟨hl a ha, ?_⟩
  rw [List.mem_map] at hb
  obtain ⟨r, hr, hrb⟩ := hb
  rw [← hrb]
  exact hp r hr

/-- C8: for equal-length predicted/actual binary label sequences, the four
confusion counts computed by `evaluate` satisfy TP + FP + TN + FN = length of
the label sequence. -/
theorem evaluate_counts_sum (predictor : Row → ℚ) (test_features : Table)
    (test_labels : List ℚ)
    (hlen : test_labels.length = test_features.length)
    (hl : ∀ x ∈ test_labels, x = 0 ∨ x = 1)
    (hp : ∀ r ∈ test_features, predictor r = 0 ∨ predictor r = 1) :
    (evaluate predictor test_features test_labels).TP
      + (evaluate predictor test_features test_labels).FP
      + (evaluate predictor test_features test_labels).TN
      + (evaluate predictor test_features test_labels).FN
      = test_labels.length := by
  have hTP : (evaluate predictor test_features test_labels).TP
      = npLogicalAndSum test_labels (predictions predictor test_features) := rfl
  have hFP : (evaluate predictor test_features test_labels).FP
      = npLogicalAndSum (oneMinus test_labels)
          (predictions predictor test_features) := rfl
  have hTN : (evaluate predictor test_features test_labels).TN
      = npLogicalAndSum (oneMinus test_labels)
          (oneMinus (predictions predictor test_features)) := rfl
  have hFN : (evaluate predictor test_features test_labels).FN
      = npLogicalAndSum test_labels
          (oneMinus (predictions predictor test_features)) := rfl
  rw [hTP, hFP, hTN, hFN, predictions_eq_map, npLogicalAndSum_eq_countP,
    npLogicalAndSum_oneMinus_left, npLogicalAndSum_oneMinus_both,
    npLogicalAndSum_oneMinus_right,
    confusion_indicator_sum _
      (zip_labels_preds_binary predictor test_features test_labels hl hp),
    List.length_zip, List.length_map, ← hlen, Nat.min_self]

/-- Witness for C8 on concrete binary sequences of equal length. -/
theorem evaluate_counts_sum_witness :
    (evaluate headPredictor [[1], [0], [1], [0]] [1, 1, 0, 0]).TP
      + (evaluate headPredictor [[1], [0], [1], [0]] [1, 1, 0, 0]).FP
      + (evaluate headPredictor [[1], [0], [1], [0]] [1, 1, 0, 0]).TN
      + (evaluate headPredictor [[1], [0], [1], [0]] [1, 1, 0, 0]).FN
      = ([1, 1, 0, 0] : List ℚ).length :=
  evaluate_counts_sum headPredictor [[1], [0], [1], [0]] [1, 1, 0, 0]
    (by decide) (by decide) (by decide)


/-- C9: `evaluate` computes the four confusion counts by pairwise logical
combination over the (actual, predicted) pairs — TP counts positions where
both equal 1, FP where actual 0 / predicted 1, TN where both 0, FN where
actual 1 / predicted 0 — derives recall = TP/(TP+FN), precision = TP/(TP+FP),
accuracy = (TP+TN)/total, and on predicted = [1,0,1,0] against actual =
[1,1,0,0] yields TP = FP = FN = TN = 1 and accuracy 1/2. -/
theorem evaluate_pairwise (predictor : Row → ℚ) (test_features : Table)
    (test_labels : List ℚ)
    (hl : ∀ x ∈ test_labels, x = 0 ∨ x = 1)
    (hp : ∀ r ∈ test_features, predictor r = 0 ∨ predictor r = 1) :
    ((evaluate predictor test_features test_labels).TP
        = (test_labels.zip (test_features.map predictor)).countP
            (fun p => p.1 == 1 && p.2 == 1)
      ∧ (evaluate predictor test_features test_labels).FP
        = (test_labels.zip (test_features.map predictor)).countP
            (fun p => p.1 == 0 && p.2 == 1)
      ∧ (evaluate predictor test_features test_labels).TN
        = (test_labels.zip (test_features.map predictor)).countP
            (fun p => p.1 == 0 && p.2 == 0)
      ∧ (evaluate predictor test_features test_labels).FN
        = (test_labels.zip (test_features.map predictor)).countP
            (fun p => p.1 == 1 && p.2 == 0))
    ∧ ((evaluate predictor test_features test_labels).Recall
        = npDiv (evaluate predictor test_features test_labels).TP
            ((evaluate predictor test_features test_labels).TP
              + (evaluate predictor test_features test_labels).FN)
      ∧ (evaluate predictor test_features test_labels).Precision
        = npDiv (evaluate predictor test_features test_labels).TP
            ((evaluate predictor test_features test_labels).TP
              + (evaluate predictor test_features test_labels).FP)
      ∧ (evaluate predictor test_features test_labels).Accuracy
        = npDiv ((evaluate predictor test_features test_labels).TP
              + (evaluate predictor test_features test_labels).TN)
            ((evaluate predictor test_features test_labels).TP
              + (evaluate predictor test_features test_labels).FP
              + (evaluate predictor test_features test_labels).TN
              + (evaluate predictor test_features test_labels).FN))
    ∧ ((evaluate headPredictor [[1], [0], [1], [0]] [1, 1, 0, 0]).TP = 1
      ∧ (evaluate headPredictor [[1], [0], [1], [0]] [1, 1, 0, 0]).FP = 1
      ∧ (evaluate headPredictor [[1], [0], [1], [0]] [1, 1, 0, 0]).FN = 1
      ∧ (evaluate headPredictor [[1], [0], [1], [0]] [1, 1, 0, 0]).TN = 1
      ∧ (evaluate headPredictor [[1], [0], [1], [0]] [1, 1, 0, 0]).Accuracy
          = NpFloat.val (1 / 2)) := by
  have hbin := zip_labels_preds_binary predictor test_features test_labels hl hp
  have hmap : List.map headPredictor [[1], [0], [1], [0]] = ([1, 0, 1, 0] : List ℚ) := rfl
  have hone1 : oneMinus [1, 1, 0, 0] = ([0, 0, 1, 1] : List ℚ) := by
    norm_num [oneMinus]
  have hone2 : oneMinus [1, 0, 1, 0] = ([0, 1, 0, 1] : List ℚ) := by
    norm_num [oneMinus]
  have hTPc : (evaluate headPredictor [[1], [0], [1], [0]] [1, 1, 0, 0]).TP = 1 := by
    rw [show (evaluate headPredictor [[1], [0], [1], [0]] [1, 1, 0, 0]).TP
        = npLogicalAndSum [1, 1, 0, 0]
            (predictions headPredictor [[1], [0], [1], [0]]) from rfl,
      predictions_eq_map, hmap]
    decide
  have hFPc : (evaluate headPredictor [[1], [0], [1], [0]] [1, 1, 0, 0]).FP = 1 := by
    rw [show (evaluate headPredictor [[1], [0], [1], [0]] [1, 1, 0, 0]).FP
        = npLogicalAndSum (oneMinus [1, 1, 0, 0])
            (predictions headPredictor [[1], [0], [1], [0]]) from rfl,
      predictions_eq_map, hmap, hone1]
    decide
  have hTNc : (evaluate headPredictor [[1], [0], [1], [0]] [1, 1, 0, 0]).TN = 1 := by
    rw [show (evaluate headPredictor [[1], [0], [1], [0]] [1, 1, 0, 0]).TN
        = npLogicalAndSum (oneMinus [1, 1, 0, 0])
            (oneMinus (predictions headPredictor [[1], [0], [1], [0]])) from rfl,
      predictions_eq_map, hmap, hone1, hone2]
    decide
  have hFNc : (evaluate headPredictor [[1], [0], [1], [0]] [1, 1, 0, 0]).FN = 1 := by
    rw [show (evaluate headPredictor [[1], [0], [1], [0]] [1, 1, 0, 0]).FN
        = npLogicalAndSum [1, 1, 0, 0]
            (oneMinus (predictions headPredictor [[1], [0], [1], [0]])) from rfl,
      predictions_eq_map, hmap, hone2]
    decide
  refine ⟨⟨?_, ?_, ?_, ?_⟩, ⟨rfl, rfl, rfl⟩,
    hTPc, hFPc, hFNc, hTNc, ?_⟩
  · rw [show (evaluate predictor test_features test_labels).TP
        = npLogicalAndSum test_labels (predictions predictor test_features) from rfl,
      predictions_eq_map, npLogicalAndSum_eq_countP]
    refine List.countP_congr ?_
    intro p hp2
    obtain ⟨ha, hb⟩ := hbin p hp2
    rcases ha with ha | ha <;> rcases hb with hb | hb <;> rw [ha, hb] <;> norm_num
  · rw [show (evaluate predictor test_features test_labels).FP
        = npLogicalAndSum (oneMinus test_labels)
            (predictions predictor test_features) from rfl,
      predictions_eq_map, npLogicalAndSum_oneMinus_left]
    refine List.countP_congr ?_
    intro p hp2
    obtain ⟨ha, hb⟩ := hbin p hp2
    rcases ha with ha | ha <;> rcases hb with hb | hb <;> rw [ha, hb] <;> norm_num
  · rw [show (evaluate predictor test_features test_labels).TN
        = npLogicalAndSum (oneMinus test_labels)
            (oneMinus (predictions predictor test_features)) from rfl,
      predictions_eq_map, npLogicalAndSum_oneMinus_both]
    refine List.countP_congr ?_
    intro p hp2
    obtain ⟨ha, hb⟩ := hbin p hp2
    rcases ha with ha | ha <;> rcases hb with hb | hb <;> rw [ha, hb] <;> norm_num
  · rw [show (evaluate predictor test_features test_labels).FN
        = npLogicalAndSum test_labels
            (oneMinus (predictions predictor test_features)) from rfl,
      predictions_eq_map, npLogicalAndSum_oneMinus_right]
    refine List.countP_congr ?_
    intro p hp2
    obtain ⟨ha, hb⟩ := hbin p hp2
    rcases ha with ha | ha <;> rcases hb with hb | hb <;> rw [ha, hb] <;> norm_num
  · rw [show (evaluate headPredictor [[1], [0], [1], [0]] [1, 1, 0, 0]).Accuracy
        = npDiv ((evaluate headPredictor [[1], [0], [1], [0]] [1, 1, 0, 0]).TP
              + (evaluate headPredictor [[1], [0], [1], [0]] [1, 1, 0, 0]).TN)
            ((evaluate headPredictor [[1], [0], [1], [0]] [1, 1, 0, 0]).TP
              + (evaluate headPredictor [[1], [0], [1], [0]] [1, 1, 0, 0]).FP
              + (evaluate headPredictor [[1], [0], [1], [0]] [1, 1, 0, 0]).TN
              + (evaluate headPredictor [[1], [0], [1], [0]] [1, 1, 0, 0]).FN) from rfl,
      hTPc, hFPc, hTNc, hFNc]
    norm_num [npDiv]

/-- Witness for C9: the pairwise TP characterization instantiated at the
concrete predicted = [1,0,1,0] / actual = [1,1,0,0] scenario. -/
theorem evaluate_pairwise_witness :
    (evaluate headPredictor [[1], [0], [1], [0]] [1, 1, 0, 0]).TP
      = (([1, 1, 0, 0] : List ℚ).zip
          (([[1], [0], [1], [0]] : Table).map headPredictor)).countP
          (fun p => p.1 == 1 && p.2 == 1) :=
  (evaluate_pairwise headPredictor [[1], [0], [1], [0]] [1, 1, 0, 0]
    (by decide) (by decide)).1.1

/-- C3 counterexample: with no positive predictions at all (the endpoint
returns 0 on every row), the precision denominator TP + FP is zero and
`evaluate` returns the NaN produced by numpy's 0/0 inside its metrics
dictionary — the zero denominator is NOT surfaced as an explicit
undefined-metric result; the NaN is returned silently. -/
theorem evaluate_zero_denominator_counterexample :
    (evaluate headPredictor [[0], [0]] [1, 1]).TP
        + (evaluate headPredictor [[0], [0]] [1, 1]).FP = 0
    ∧ (evaluate headPredictor [[0], [0]] [1, 1]).Precision = NpFloat.nan := by
  have hmap : List.map headPredictor [[0], [0]] = ([0, 0] : List ℚ) := rfl
  have htp : (evaluate headPredictor [[0], [0]] [1, 1]).TP = 0 := by
    rw [show (evaluate headPredictor [[0], [0]] [1, 1]).TP
        = npLogicalAndSum [1, 1] (predictions headPredictor [[0], [0]]) from rfl,
      predictions_eq_map, hmap]
    decide
  have hfp : (evaluate headPredictor [[0], [0]] [1, 1]).FP = 0 := by
    rw [show (evaluate headPredictor [[0], [0]] [1, 1]).FP
        = npLogicalAndSum (oneMinus [1, 1])
            (predictions headPredictor [[0], [0]]) from rfl,
      predictions_eq_map, hmap]
    exact npLogicalAndSum_right_zero _ _ (by decide)
  refine ⟨by rw [htp, hfp], ?_⟩
  rw [show (evaluate headPredictor [[0], [0]] [1, 1]).Precision
      = npDiv (evaluate headPredictor [[0], [0]] [1, 1]).TP
          ((evaluate headPredictor [[0], [0]] [1, 1]).TP
            + (evaluate headPredictor [[0], [0]] [1, 1]).FP) from rfl,
    htp, hfp]
  rfl

/-- C3 (amended): when the predictor returns no positive prediction on any
test row, the precision denominator TP + FP computed by `evaluate` is zero
and `evaluate` silently returns NaN (numpy's 0/0) as the Precision entry of
its metrics dictionary — it neither raises nor produces an explicit
undefined-metric marker; detecting the NaN is left to the caller. -/
theorem evaluate_zero_denominator_silent_nan (predictor : Row → ℚ)
    (test_features : Table) (test_labels : List ℚ)
    (hp : ∀ r ∈ test_features, predictor r = 0) :
    (evaluate predictor test_features test_labels).TP
        + (evaluate predictor test_features test_labels).FP = 0
    ∧ (evaluate predictor test_features test_labels).Precision = NpFloat.nan := by
  have hall : ∀ y ∈ test_features.map predictor, y = 0 := by
    intro y hy
    rw [List.mem_map] at hy
    obtain ⟨r, hr, hry⟩ := hy
    rw [← hry]
    exact hp r hr
  have htp : (evaluate predictor test_features test_labels).TP = 0 := by
    rw [show (evaluate predictor test_features test_labels).TP
        = npLogicalAndSum test_labels (predictions predictor test_features) from rfl,
      predictions_eq_map]
    exact npLogicalAndSum_right_zero _ _ hall
  have hfp : (evaluate predictor test_features test_labels).FP = 0 := by
    rw [show (evaluate predictor test_features test_labels).FP
        = npLogicalAndSum (oneMinus test_labels)
            (predictions predictor test_features) from rfl,
      predictions_eq_map]
    exact npLogicalAndSum_right_zero _ _ hall
  refine ⟨by rw [htp, hfp], ?_⟩
  rw [show (evaluate predictor test_features test_labels).Precision
      = npDiv (evaluate predictor test_features test_labels).TP
          ((evaluate predictor test_features test_labels).TP
            + (evaluate predictor test_features test_labels).FP) from rfl,
    htp, hfp]
  rfl

/-- Witness for the amended C3 at a concrete all-negative predictor run. -/
theorem evaluate_zero_denominator_silent_nan_witness :
    (evaluate headPredictor [[0], [0], [0]] [1, 0, 1]).TP
        + (evaluate headPredictor [[0], [0], [0]] [1, 0, 1]).FP = 0
    ∧ (evaluate headPredictor [[0], [0], [0]] [1, 0, 1]).Precision = NpFloat.nan :=
  evaluate_zero_denominator_silent_nan headPredictor [[0], [0], [0]] [1, 0, 1]
    (by decide)
